import Mathlib

/-!
Verification of the text-analysis and suggestion-pipeline subsystem of a
browser-based writing assistant.

The development shallowly embeds the relevant TypeScript sources:

* `useTextAnalysis` (text statistics),
* `textAnalysis` utilities (`analyzeTone`),
* `openai.service` (`createApiError`, `makeRequestWithRetry`, the suggestion
  parser of `getSuggestions`/`analyzeText`),
* `errorHandling` utilities (`parseApiError`),
* the `useSuggestions` hook (`applySuggestion`, `dismissSuggestion`),
* the `useOpenAI` hook (`fetchSuggestions` state updates).

JavaScript strings are modelled as lists of characters, JavaScript numbers
that stay integral as `Nat`, and the one fractional statistic as `Rat`.
Asynchronous code is modelled by explicit state passing: the retrying
executor takes the (externally determined) outcome of each attempt as a
function of the attempt index, and the hook is a step function on its state
driven by an explicit event trace.
-/

/-- JavaScript strings are modelled as lists of characters. -/
abbrev Str := List Char

/-- ASCII fragment of the JavaScript `\s` character class (space, tab,
line feed, carriage return, vertical tab, form feed). -/
def isSpace (c : Char) : Bool :=
  c = ' ' || c = '\t' || c = '\n' || c = '\r' || c = Char.ofNat 11 || c = Char.ofNat 12

/-- `String.prototype.trim`: strip leading and trailing whitespace. -/
def trim (l : Str) : Str :=
  ((l.dropWhile isSpace).reverse.dropWhile isSpace).reverse

/-- One left-to-right pass over the string collecting the maximal runs of
characters not satisfying `p`; `acc` holds the reversed current run.  Empty
fragments are dropped, which is the effect of `split(/[cs]+/)` followed by
the source's filter for non-empty tokens (a leading separator in JavaScript
also yields one empty token, which that filter discards). -/
def wordsByGo (p : Char → Bool) (acc : Str) : Str → List Str
  | [] => if acc = [] then [] else [acc.reverse]
  | c :: cs =>
    if p c then
      if acc = [] then wordsByGo p [] cs else acc.reverse :: wordsByGo p [] cs
    else wordsByGo p (c :: acc) cs

/-- Split into the maximal runs of characters not satisfying `p`, dropping
empty fragments. -/
def wordsBy (p : Char → Bool) (l : Str) : List Str :=
  wordsByGo p [] l

/-- Sentence-ending punctuation used by the `/[.!?]+/` splits. -/
def isSentencePunct (c : Char) : Bool :=
  c = '.' || c = '!' || c = '?'

/-- Length of the separator matched by the regex `\n\s*\n` at the head of
`l`, `0` when no separator starts here.  The greedy `\s*` with backtracking
means a match starts at a newline whose following whitespace run contains
another newline, and the match ends at the last newline of that run. -/
def paraSepLen (l : Str) : Nat :=
  match l with
  | [] => 0
  | c :: cs =>
    if c = '\n' then
      let ws := cs.takeWhile isSpace
      if ws.contains '\n' then
        1 + (ws.length - (ws.reverse.takeWhile (fun x => x ≠ '\n')).length)
      else 0
    else 0

/-- `split(/\n\s*\n/)`: cut the string at every separator found by
`paraSepLen`, scanning left to right.  `acc` holds the reversed current
fragment.  `fuel` bounds the number of scanning steps structurally; each
step consumes at least one character, so calling with `fuel = l.length`
(as `splitParas` does) never reaches the out-of-fuel fallback. -/
def splitParasGo (fuel : Nat) (acc : Str) (l : Str) : List Str :=
  match fuel, l with
  | _, [] => [acc.reverse]
  | 0, l => [acc.reverse ++ l]
  | fuel + 1, c :: cs =>
    let n := paraSepLen (c :: cs)
    if n = 0 then splitParasGo fuel (c :: acc) cs
    else acc.reverse :: splitParasGo fuel [] ((c :: cs).drop n)

/-- Split at every `\n\s*\n` separator. -/
def splitParas (l : Str) : List Str :=
  splitParasGo l.length [] l

/-- The statistics record returned by `useTextAnalysis`. -/
structure TextStatistics where
  wordCount : Nat
  characterCount : Nat
  characterCountNoSpaces : Nat
  sentenceCount : Nat
  paragraphCount : Nat
  avgWordsPerSentence : Rat
  readingTime : Nat
deriving DecidableEq, Repr

/-- JavaScript `Math.round` on a non-negative rational. -/
def jsRound (x : Rat) : Int :=
  Int.floor (x + 1/2)

/-- The memoized computation inside `useTextAnalysis`.  The guard
`!text || text.trim().length === 0` is equivalent to `trim text = []`
(an empty string is falsy and trims to itself). -/
def computeStatistics (text : Str) : TextStatistics :=
  if trim text = [] then
    ⟨0, 0, 0, 0, 0, 0, 0⟩
  else
    let t := trim text
    let characterCount := text.length
    let characterCountNoSpaces := (text.filter (fun c => !isSpace c)).length
    let words := (wordsBy isSpace t).filter (fun w => w.length > 0)
    let wordCount := words.length
    let sentences := (wordsBy isSentencePunct t).filter (fun s => (trim s).length > 0)
    let sentenceCount := max sentences.length 0
    let paragraphs := (splitParas t).filter (fun p => (trim p).length > 0)
    let paragraphCount := max paragraphs.length 0
    let avgWordsPerSentence : Rat :=
      if sentenceCount > 0 then (wordCount : Rat) / (sentenceCount : Rat) else 0
    let readingTime := (wordCount + 199) / 200
    ⟨wordCount, characterCount, characterCountNoSpaces, sentenceCount, paragraphCount,
      (jsRound (avgWordsPerSentence * 10) : Rat) / 10, readingTime⟩

/-! ## ToneClassifier: the local heuristic `analyzeTone` of `textAnalysis.ts` -/

/-- The five-value tone set of the local classifier. -/
inductive Tone
  | formal
  | casual
  | technical
  | creative
  | neutral
deriving DecidableEq, Repr

/-- ASCII lowering, as `toLowerCase` acts on the characters occurring here. -/
def jsToLower (c : Char) : Char :=
  if 'A' ≤ c ∧ c ≤ 'Z' then Char.ofNat (c.toNat + 32) else c

/-- The JavaScript `\w` class `[A-Za-z0-9_]`, used for `\b` boundaries. -/
def isWordChar (c : Char) : Bool :=
  (decide ('a' ≤ c) && decide (c ≤ 'z')) ||
  (decide ('A' ≤ c) && decide (c ≤ 'Z')) ||
  (decide ('0' ≤ c) && decide (c ≤ '9')) || c = '_'

/-- A `\b` holds before a match iff the preceding character (if any) is not
a word character. -/
def boundaryBefore : Option Char → Bool
  | none => true
  | some c => !isWordChar c

/-- A `\b` holds after a match iff the following character (if any) is not
a word character. -/
def boundaryAfter : Str → Bool
  | [] => true
  | c :: _ => !isWordChar c

/-- `w` matches at the head of `rest` with a trailing word boundary. -/
def wordMatchAt (w rest : Str) : Bool :=
  w.isPrefixOf rest && boundaryAfter (rest.drop w.length)

/-- Scan for `\bw\b` anywhere in the remaining text; `prev` is the
character just before the current position. -/
def wordOccursFrom (w : Str) : Option Char → Str → Bool
  | _, [] => false
  | prev, c :: cs =>
    (boundaryBefore prev && wordMatchAt w (c :: cs)) || wordOccursFrom w (some c) cs

/-- `new RegExp("\\b" + w + "\\b").test(l)` for a word `w` of word
characters. -/
def wordOccurs (w l : Str) : Bool :=
  wordOccursFrom w none l

/-- `n` consecutive copies of `c` occur somewhere — the `[!]{2,}` and
`[.]{3}` regex tests. -/
def hasRepeat (c : Char) (n : Nat) (l : Str) : Bool :=
  l.tails.any (fun t => decide (t.take n = List.replicate n c))

/-- One regex of a tone pattern family: either an alternation of whole
words (`\b(w1|w2|…)\b`) or a run of `n` copies of one character. -/
inductive TonePattern
  | words (alts : List Str)
  | run (c : Char) (n : Nat)

/-- `pattern.test(lowerText)`. -/
def tonePatternTest (l : Str) : TonePattern → Bool
  | .words alts => alts.any (fun w => wordOccurs w l)
  | .run c n => hasRepeat c n l

/-- The `formalPatterns` array. -/
def formalPatterns : List TonePattern :=
  [ .words ["therefore".data, "furthermore".data, "moreover".data,
      "consequently".data, "thus".data, "hence".data],
    .words ["regarding".data, "pursuant".data, "herewith".data, "hereby".data],
    .words ["shall".data, "ought".data, "must".data] ]

/-- The `casualPatterns` array. -/
def casualPatterns : List TonePattern :=
  [ .words ["yeah".data, "yep".data, "nope".data, "gonna".data, "wanna".data,
      "kinda".data, "sorta".data],
    .words ["cool".data, "awesome".data, "great".data, "nice".data],
    .run '!' 2,
    .words ["lol".data, "btw".data, "tbh".data, "imo".data] ]

/-- The `technicalPatterns` array. -/
def technicalPatterns : List TonePattern :=
  [ .words ["algorithm".data, "function".data, "parameter".data, "variable".data,
      "implementation".data, "optimize".data],
    .words ["methodology".data, "analysis".data, "framework".data,
      "architecture".data, "infrastructure".data],
    .words ["interface".data, "component".data, "module".data, "protocol".data] ]

/-- The `creativePatterns` array. -/
def creativePatterns : List TonePattern :=
  [ .words ["imagine".data, "envision".data, "dream".data, "wonder".data,
      "magical".data, "enchanting".data],
    .words ["vibrant".data, "brilliant".data, "dazzling".data, "mesmerizing".data],
    .run '.' 3 ]

/-- The four family scores of `analyzeTone`, computed on the lowercased
text: each family's `reduce` adds `1` per pattern whose `test` succeeds. -/
def toneScores (text : Str) : Nat × Nat × Nat × Nat :=
  let lowerText := text.map jsToLower
  (formalPatterns.countP (tonePatternTest lowerText),
   casualPatterns.countP (tonePatternTest lowerText),
   technicalPatterns.countP (tonePatternTest lowerText),
   creativePatterns.countP (tonePatternTest lowerText))

/-- `analyzeTone`: `Math.max` over the four scores, `neutral` when it is
zero, otherwise the first key of the `scores` object (insertion order
formal, casual, technical, creative) whose score equals the maximum. -/
def analyzeTone (text : Str) : Tone :=
  let s := toneScores text
  let maxScore := max (max (max s.1 s.2.1) s.2.2.1) s.2.2.2
  if maxScore = 0 then Tone.neutral
  else
    match [(Tone.formal, s.1), (Tone.casual, s.2.1),
           (Tone.technical, s.2.2.1), (Tone.creative, s.2.2.2)].find?
          (fun p => p.2 == maxScore) with
    | some p => p.1
    | none => Tone.neutral

/-- Modelled from the spec's selection rule, for comparison with
`analyzeTone`: pick the family with the strictly highest score, `neutral`
when the maximum score is 0, ties between non-zero equal scores resolved by
the fixed precedence formal > casual > technical > creative. -/
def toneSpec (text : Str) : Tone :=
  let s := toneScores text
  if s.1 = 0 ∧ s.2.1 = 0 ∧ s.2.2.1 = 0 ∧ s.2.2.2 = 0 then Tone.neutral
  else if s.2.1 ≤ s.1 ∧ s.2.2.1 ≤ s.1 ∧ s.2.2.2 ≤ s.1 then Tone.formal
  else if s.2.2.1 ≤ s.2.1 ∧ s.2.2.2 ≤ s.2.1 then Tone.casual
  else if s.2.2.2 ≤ s.2.2.1 then Tone.technical
  else Tone.creative

/-! ## Error classification: `createApiError` (openai.service.ts) and
`parseApiError` (errorHandling utilities) -/

/-- `RATE_LIMIT_ERROR_MESSAGE` from the prompts module. -/
def RATE_LIMIT_ERROR_MESSAGE : Str :=
  "API rate limit exceeded. Please wait a moment and try again.".data

/-- `NETWORK_ERROR_MESSAGE` from the prompts module. -/
def NETWORK_ERROR_MESSAGE : Str :=
  "Network error. Please check your connection and try again.".data

/-- `API_ERROR_MESSAGE` from the prompts module. -/
def API_ERROR_MESSAGE : Str :=
  "An error occurred while analyzing your text. Please try again.".data

/-- The `ApiError` value type (`src/types/api`).  The `details` record is
reduced to the one string (`error.type`) the source ever stores in it. -/
structure ApiError where
  code : Str
  message : Str
  status : Option Nat
  details : Option Str
  retryable : Bool
deriving DecidableEq, Repr

/-- JavaScript `a || b` on an optional string: the fallback is used when
the value is `undefined` or the empty string (both falsy). -/
def jsOrStr (o : Option Str) (dflt : Str) : Str :=
  match o with
  | none => dflt
  | some s => if s = [] then dflt else s

/-- `sub` occurs as a substring — `String.prototype.includes`. -/
def jsIncludes (s sub : Str) : Bool :=
  decide (sub <:+: s)

/-- The values `createApiError` can receive: an `OpenAI.APIError` (with its
optional HTTP status and code, message and type), any other `Error`
instance (with its `name` and `message`), or a non-`Error` value. -/
inductive JsErr
  | apiErr (status : Option Nat) (code : Option Str) (message : Str) (etype : Str)
  | errInstance (name message : Str)
  | other
deriving DecidableEq, Repr

/-- `createApiError` from `openai.service.ts`.  On an `OpenAI.APIError`,
`error.status && error.status >= 500` is falsy when the status is absent
(or 0, where `0 >= 500` is false anyway). -/
def createApiError : JsErr → ApiError
  | .apiErr status code message etype =>
    let isRateLimit : Bool := status == some 429
    let isServerError : Bool :=
      match status with
      | some s => decide (500 ≤ s)
      | none => false
    { code := jsOrStr code "API_ERROR".data
      message := if isRateLimit then RATE_LIMIT_ERROR_MESSAGE
                 else jsOrStr (some message) API_ERROR_MESSAGE
      status := status
      details := some etype
      retryable := isRateLimit || isServerError }
  | .errInstance _ message =>
    let isNetworkError : Bool :=
      jsIncludes message "fetch".data || jsIncludes message "network".data
    { code := "NETWORK_ERROR".data
      message := if isNetworkError then NETWORK_ERROR_MESSAGE else message
      status := none
      details := none
      retryable := isNetworkError }
  | .other =>
    { code := "UNKNOWN_ERROR".data
      message := API_ERROR_MESSAGE
      status := none
      details := none
      retryable := false }

/-- The values `parseApiError` can receive, in the order its guards test
them: an object that already passes `isApiError` (has `message` and `code`
properties), an `Error` instance, a non-`Error` object carrying a numeric
`status`, or anything else. -/
inductive UnknownErr
  | alreadyApi (e : ApiError)
  | errInstance (name message : Str)
  | statusObj (status : Nat)
  | unknown
deriving DecidableEq, Repr

/-- `parseApiError` from the error-handling utilities.  A `statusObj`
whose status falls under no branch (status < 400) falls through to the
same unknown-error result as `unknown`. -/
def parseApiError : UnknownErr → ApiError
  | .alreadyApi e => e
  | .errInstance name message =>
    { code := if name = "AbortError".data then "request_aborted".data
              else "unknown_error".data
      message := message
      status := none
      details := none
      retryable := name != "AbortError".data }
  | .statusObj status =>
    if status = 429 then
      { code := "rate_limit_exceeded".data
        message := "Too many requests. Please try again in a moment.".data
        status := none, details := none, retryable := true }
    else if status = 401 ∨ status = 403 then
      { code := "unauthorized".data
        message := "Authentication failed. Please check your API key.".data
        status := none, details := none, retryable := false }
    else if 500 ≤ status then
      { code := "server_error".data
        message := "Server error. Please try again later.".data
        status := none, details := none, retryable := true }
    else if 400 ≤ status then
      { code := "bad_request".data
        message := "Bad request. Please check your input.".data
        status := none, details := none, retryable := false }
    else
      { code := "unknown_error".data
        message := "An unexpected error occurred. Please try again.".data
        status := none, details := none, retryable := true }
  | .unknown =>
    { code := "unknown_error".data
      message := "An unexpected error occurred. Please try again.".data
      status := none, details := none, retryable := true }

/-! ## RetryingRequestExecutor: `makeRequestWithRetry` (openai.service.ts) -/

/-- `CONFIG.retryDelay` — the executor's base backoff delay; the delay
computation always uses this constant (the request options cannot change
it). -/
def CONFIG_retryDelay : Nat := 1000

/-- `getBackoffDelay(attempt, baseDelay) = baseDelay * 2 ** attempt`. -/
def getBackoffDelay (attempt baseDelay : Nat) : Nat :=
  baseDelay * 2 ^ attempt

/-- Observable outcome of one `makeRequestWithRetry` run: the value
returned or the `ApiError` thrown, the number of times the operation was
invoked, and the backoff delays slept between attempts, in order. -/
structure RunResult (α : Type) where
  result : Except ApiError α
  calls : Nat
  delays : List Nat
deriving Repr

/-- The retry loop of `makeRequestWithRetry`, unrolled from attempt index
`attempt` with `remaining` further attempts allowed (`remaining =
maxRetries - attempt`, so `remaining = 0` is the source's `attempt ===
maxRetries` last-attempt test).  `f k` is the settled outcome of attempt
`k`'s race between the operation and the timeout: a value, or the raw
error it rejected with (a timeout contributes `Error('Request timeout')`).
Failures are classified by `createApiError`; a non-retryable
classification or the last attempt breaks out and throws, otherwise the
loop sleeps `getBackoffDelay(attempt, CONFIG.retryDelay)` and retries. -/
def retryGo {α : Type} (f : Nat → Except JsErr α) (baseDelay : Nat) :
    Nat → Nat → RunResult α
  | attempt, remaining =>
    match f attempt with
    | .ok v => ⟨.ok v, 1, []⟩
    | .error e =>
      let ae := createApiError e
      if ae.retryable = false then ⟨.error ae, 1, []⟩
      else
        match remaining with
        | 0 => ⟨.error ae, 1, []⟩
        | r + 1 =>
          let rest := retryGo f baseDelay (attempt + 1) r
          ⟨rest.result, rest.calls + 1, getBackoffDelay attempt baseDelay :: rest.delays⟩

/-- `makeRequestWithRetry(requestFn, { maxRetries })`: run the loop from
attempt 0 with `maxRetries` retries allowed.  (`options.timeout` only
shapes each attempt's outcome, already folded into `f`; `options.signal`
is accepted by the type but never read.) -/
def makeRequestWithRetry {α : Type} (f : Nat → Except JsErr α) (maxRetries : Nat) :
    RunResult α :=
  retryGo f CONFIG_retryDelay 0 maxRetries

/-! ## SuggestionServiceClient: the response parser of `getSuggestions` /
`analyzeText` (openai.service.ts) -/

/-- The decimal digit character for `n < 10`. -/
def digitChar (n : Nat) : Char := Char.ofNat (48 + n)

/-- Decimal rendering, with a structural fuel so the kernel can evaluate
it; `fuel > n` never reaches the out-of-fuel fallback. -/
def natReprGo : Nat → Nat → Str
  | 0, _ => []
  | fuel + 1, n =>
    if n < 10 then [digitChar n]
    else natReprGo fuel (n / 10) ++ [digitChar (n % 10)]

/-- Decimal rendering of a natural number — what JavaScript template
interpolation `${n}` produces for a non-negative integer. -/
def natRepr (n : Nat) : Str := natReprGo (n + 1) n

/-- The id template `` `suggestion-${Date.now()}-${index}` ``; `now` is the
value `Date.now()` returned when the batch was parsed. -/
def mkId (now idx : Nat) : Str :=
  "suggestion-".data ++ natRepr now ++ ('-' :: natRepr idx)

/-- One raw suggestion of the remote payload (`Partial<WritingSuggestion>`):
every field may be missing.  An `id` in the payload is representable but,
as proved below, never used. -/
structure PartialSuggestion where
  id : Option Str := none
  category : Option Str := none
  severity : Option Str := none
  message : Option Str := none
  originalText : Option Str := none
  suggestedText : Option Str := none
  alternatives : Option (List Str) := none
  position : Option (Nat × Nat) := none
  explanation : Option Str := none
deriving DecidableEq, Repr

/-- The `WritingSuggestion` entity (`src/types/api`). -/
structure WritingSuggestion where
  id : Str
  category : Str
  severity : Str
  message : Str
  originalText : Str
  suggestedText : Option Str
  alternatives : Option (List Str)
  position : Nat × Nat
  explanation : Option Str
deriving DecidableEq, Repr

/-- The per-element normalization inside the `suggestions.map((s, index) =>
…)` of `getSuggestions` (the identical mapping appears in `analyzeText`).
`||`-defaults use `jsOrStr`; `s.position || {start: 0, end: 0}` only
defaults a missing object (a present object is always truthy). -/
def parseSuggestion (now idx : Nat) (s : PartialSuggestion) : WritingSuggestion :=
  { id := mkId now idx
    category := jsOrStr s.category "style".data
    severity := jsOrStr s.severity "suggestion".data
    message := jsOrStr s.message []
    originalText := jsOrStr s.originalText []
    suggestedText := s.suggestedText
    alternatives := s.alternatives
    position := s.position.getD (0, 0)
    explanation := s.explanation }

/-- Parsing one response batch: map the normalization over the payload
with its indices. -/
def parseBatch (now : Nat) (payload : List PartialSuggestion) : List WritingSuggestion :=
  payload.mapIdx (fun i s => parseSuggestion now i s)

/-! ## SuggestionPipeline commands: `applySuggestion` / `dismissSuggestion`
(useSuggestions hook) -/

/-- The suggestion-list state owned by the `useSuggestions` hook: the
current list and the set of dismissed ids (modelled as a list, membership
is what matters). -/
structure SuggestionListState where
  suggestions : List WritingSuggestion
  dismissedIds : List Str
deriving DecidableEq, Repr

/-- `dismissSuggestion`: record the id as dismissed and remove the
suggestion from the list. -/
def dismissSuggestion (s : WritingSuggestion) (st : SuggestionListState) :
    SuggestionListState :=
  { dismissedIds := s.id :: st.dismissedIds
    suggestions := st.suggestions.filter (fun x => x.id != s.id) }

/-- The backquote character `$` + backquote is one of the JavaScript
replacement escapes. -/
def backquoteChar : Char := Char.ofNat 96

/-- The apostrophe character, for the `$`-apostrophe escape. -/
def apostropheChar : Char := Char.ofNat 39

/-- ECMAScript `GetSubstitution` for a string (capture-free) search:
`$$` is a literal dollar, `$&` the matched text, `$`-backquote the text
before the match, `$`-apostrophe the text after it; a `$` followed by
anything else stays literal. -/
def jsSubstitute (matched before after : Str) : Str → Str
  | [] => []
  | ['$'] => ['$']
  | '$' :: d :: rest =>
    if d = '$' then '$' :: jsSubstitute matched before after rest
    else if d = '&' then matched ++ jsSubstitute matched before after rest
    else if d = backquoteChar then before ++ jsSubstitute matched before after rest
    else if d = apostropheChar then after ++ jsSubstitute matched before after rest
    else '$' :: d :: jsSubstitute matched before after rest
  | c :: rest => c :: jsSubstitute matched before after rest

/-- Find the leftmost occurrence of `pat`, returning the text before and
after it; `before` accumulates the scanned prefix reversed.  An empty
`pat` matches immediately at the current position. -/
def findFirstAux (pat : Str) (before : Str) : Str → Option (Str × Str)
  | [] => if pat.isPrefixOf ([] : Str) then some (before.reverse, []) else none
  | c :: cs =>
    if pat.isPrefixOf (c :: cs) then some (before.reverse, (c :: cs).drop pat.length)
    else findFirstAux pat (c :: before) cs

/-- `text.replace(pat, repl)` with a string search value: replace the
leftmost occurrence of `pat` (if any) by the substitution of `repl`. -/
def jsReplace (text pat repl : Str) : Str :=
  match findFirstAux pat [] text with
  | none => text
  | some (b, a) => b ++ jsSubstitute pat b a repl ++ a

/-- Modelled from the spec: replace exactly the first occurrence of `pat`
by `repl`, returning the text unchanged when `pat` does not occur.  Used
as the comparison point for `applySuggestion`'s replacement step. -/
def replaceFirst (pat repl : Str) : Str → Str
  | [] => []
  | c :: cs =>
    if pat.isPrefixOf (c :: cs) then repl ++ (c :: cs).drop pat.length
    else c :: replaceFirst pat repl cs

/-- `applySuggestion(suggestion, currentText)` of the `useSuggestions`
hook, returning the updated text together with the updated list state.
When `suggestedText` or `originalText` is falsy (absent or empty) it
returns early — before the dismissal side effect.  Otherwise it replaces
via `String.prototype.replace` and dismisses the applied suggestion. -/
def applySuggestion (s : WritingSuggestion) (currentText : Str)
    (st : SuggestionListState) : Str × SuggestionListState :=
  let falsySuggested :=
    match s.suggestedText with
    | none => true
    | some r => r = []
  if falsySuggested || (s.originalText == []) then (currentText, st)
  else
    let repl := s.suggestedText.getD []
    (jsReplace currentText s.originalText repl, dismissSuggestion s st)

/-! ## The `useOpenAI` hook: `fetchSuggestions` state updates

`fetchSuggestions` aborts the previous `AbortController`, stores a new
one, sets the loading state, awaits `getSuggestions`, and writes the
outcome into the hook state.  Two facts are read off the source and fixed
in this model:

* the abort has no effect on the in-flight request — `getSuggestions`
  receives `options.signal`, but `makeRequestWithRetry` destructures only
  `maxRetries` and `timeout` and the completion call never sees the
  signal — so an earlier call's await always resumes with the request's
  real outcome;
* the `error instanceof Error && error.name === 'AbortError'` guard in the
  catch block never fires, because the value `makeRequestWithRetry` throws
  is the plain `ApiError` object `lastError`, not an `Error` instance.

Hence every started fetch eventually applies its settle update
unconditionally, whichever calls were made in between. -/

/-- The `useOpenAI` hook state mutated by `fetchSuggestions` (the `result`
field of the full state is untouched by this path and omitted). -/
structure UseOpenAIState where
  suggestions : List WritingSuggestion
  loading : Bool
  error : Option ApiError
deriving DecidableEq, Repr

/-- The state before any fetch. -/
def initialHookState : UseOpenAIState := ⟨[], false, none⟩

/-- A `fetchSuggestions(text, mode)` call whose text passes the length
validation: abort the previous controller (no observable effect, see
above) and set `loading: true, error: null`. -/
def fetchStart (s : UseOpenAIState) : UseOpenAIState :=
  { s with loading := true, error := none }

/-- The awaited `getSuggestions` of some earlier `fetchSuggestions` call
settles: on success store the batch and clear loading and error, on
failure store the thrown `ApiError` (the AbortError guard being
unreachable, see above). -/
def fetchSettle (o : Except ApiError (List WritingSuggestion))
    (s : UseOpenAIState) : UseOpenAIState :=
  match o with
  | .ok batch => { s with suggestions := batch, loading := false, error := none }
  | .error e => { s with loading := false, error := some e }

/-- One interleaving event of a pipeline run: a fetch call starting, or
the settling of the request behind some started fetch. -/
inductive FetchEvent
  | start
  | settle (o : Except ApiError (List WritingSuggestion))

/-- Run an event interleaving against the hook state. -/
def runTrace : List FetchEvent → UseOpenAIState → UseOpenAIState
  | [], s => s
  | .start :: es, s => runTrace es (fetchStart s)
  | .settle o :: es, s => runTrace es (fetchSettle o s)

/-! ## Concrete fixtures used to evaluate the embedded operations -/

/-- A suggestion whose `originalText` occurs in the fixture text and whose
replacement is present. -/
def fixtureApplicable : WritingSuggestion :=
  ⟨"suggestion-1-0".data, "style".data, "suggestion".data, "msg".data,
    "b".data, some "c".data, none, (0, 0), none⟩

/-- A suggestion with empty `originalText` (the parser's default for a
payload that omits the field) and a present replacement. -/
def fixtureEmptyOriginal : WritingSuggestion :=
  ⟨"suggestion-1-1".data, "style".data, "suggestion".data, "msg".data,
    [], some "x".data, none, (0, 0), none⟩

/-- A suggestion with no `suggestedText`. -/
def fixtureNoReplacement : WritingSuggestion :=
  ⟨"suggestion-1-2".data, "style".data, "suggestion".data, "msg".data,
    "ab".data, none, none, (0, 0), none⟩

/-- A batch fetched by request A of the staleness scenario. -/
def fixtureBatchA : List WritingSuggestion :=
  [⟨"suggestion-2-0".data, "style".data, "suggestion".data, "from A".data,
      "x".data, none, none, (0, 0), none⟩]

/-- A batch fetched by request B of the staleness scenario. -/
def fixtureBatchB : List WritingSuggestion :=
  [⟨"suggestion-3-0".data, "style".data, "suggestion".data, "from B".data,
      "y".data, none, none, (0, 0), none⟩]

/-! ## Helper lemmas -/

/-- The selection step of `analyzeTone` agrees with the spec's cascade on
all score quadruples that can arise (each score is bounded by its pattern
family's size). -/
theorem pickTone_eq_bounded :
    ∀ f < 4, ∀ c < 5, ∀ t < 4, ∀ cr < 4,
      (let maxScore := max (max (max f c) t) cr
       if maxScore = 0 then Tone.neutral
       else
         match [(Tone.formal, f), (Tone.casual, c), (Tone.technical, t),
                (Tone.creative, cr)].find? (fun p => p.2 == maxScore) with
         | some p => p.1
         | none => Tone.neutral) =
      (if f = 0 ∧ c = 0 ∧ t = 0 ∧ cr = 0 then Tone.neutral
       else if c ≤ f ∧ t ≤ f ∧ cr ≤ f then Tone.formal
       else if t ≤ c ∧ cr ≤ c then Tone.casual
       else if cr ≤ t then Tone.technical
       else Tone.creative) := by
  decide

theorem analyzeTone_eq_toneSpec (text : Str) : analyzeTone text = toneSpec text := by
  have hf : (toneScores text).1 < 4 :=
    Nat.lt_succ_of_le (List.countP_le_length _)
  have hc : (toneScores text).2.1 < 5 :=
    Nat.lt_succ_of_le (List.countP_le_length _)
  have ht : (toneScores text).2.2.1 < 4 :=
    Nat.lt_succ_of_le (List.countP_le_length _)
  have hcr : (toneScores text).2.2.2 < 4 :=
    Nat.lt_succ_of_le (List.countP_le_length _)
  exact pickTone_eq_bounded _ hf _ hc _ ht _ hcr

theorem dropWhile_head_not {p : Char → Bool} :
    ∀ (l : Str) {c cs}, l.dropWhile p = c :: cs → p c = false := by
  intro l
  induction l with
  | nil => intro c cs h; simp [List.dropWhile] at h
  | cons a as ih =>
    intro c cs h
    by_cases ha : p a = true
    · exact ih (by simpa [List.dropWhile, ha] using h)
    · simp only [List.dropWhile, ha, if_neg] at h
      cases h
      simpa using ha

theorem exists_nonspace_of_trim_ne_nil {l : Str} (h : trim l ≠ []) :
    ∃ c ∈ trim l, isSpace c = false := by
  unfold trim at *
  rcases hk : (l.dropWhile isSpace).reverse.dropWhile isSpace with _ | ⟨c, cs⟩
  · exact absurd (by simp [hk]) h
  · exact ⟨c, by simp [hk], dropWhile_head_not _ hk⟩

theorem wordsByGo_ne_nil {p : Char → Bool} :
    ∀ (l : Str) (acc : Str), (acc ≠ [] ∨ ∃ c ∈ l, p c = false) →
      wordsByGo p acc l ≠ [] := by
  intro l
  induction l with
  | nil =>
    intro acc h
    rcases h with h | ⟨c, hc, _⟩
    · simp [wordsByGo, h]
    · simp at hc
  | cons a as ih =>
    intro acc h
    by_cases ha : p a = true
    · by_cases hacc : acc = []
      · subst hacc
        rcases h with h | ⟨c, hc, hcp⟩
        · exact absurd rfl h
        · rcases List.mem_cons.1 hc with rfl | hmem
          · simp [ha] at hcp
          · simpa [wordsByGo, ha] using ih [] (Or.inr ⟨c, hmem, hcp⟩)
      · simp [wordsByGo, ha, hacc]
    · simpa [wordsByGo, ha] using ih (a :: acc) (Or.inl (by simp))

theorem wordsByGo_mem_ne_nil {p : Char → Bool} :
    ∀ (l : Str) (acc : Str) (w : Str), w ∈ wordsByGo p acc l → w ≠ [] := by
  intro l
  induction l with
  | nil =>
    intro acc w hw
    by_cases hacc : acc = [] <;> simp [wordsByGo, hacc] at hw
    simp [hw, hacc]
  | cons a as ih =>
    intro acc w hw
    by_cases ha : p a = true
    · by_cases hacc : acc = []
      · exact ih [] w (by simpa [wordsByGo, ha, hacc] using hw)
      · rcases List.mem_cons.1 (by simpa [wordsByGo, ha, hacc] using hw) with rfl | hmem
        · simp [hacc]
        · exact ih [] w hmem
    · exact ih (a :: acc) w (by simpa [wordsByGo, ha] using hw)

theorem wordsBy_filter_ne_nil {p : Char → Bool} {l : Str}
    (h : ∃ c ∈ l, p c = false) :
    (wordsBy p l).filter (fun w => w.length > 0) ≠ [] := by
  rcases hw : wordsBy p l with _ | ⟨w, ws⟩
  · exact absurd hw (wordsByGo_ne_nil l [] (Or.inr h))
  · have hw' : wordsByGo p [] l = w :: ws := hw
    have hwne : w ≠ [] := wordsByGo_mem_ne_nil l [] w (by
      rw [hw']
      exact List.mem_cons_self w ws)
    intro hf
    have hmem : w ∈ (w :: ws).filter (fun w => w.length > 0) :=
      List.mem_filter.2 ⟨by simp, by simpa [List.length_pos] using hwne⟩
    rw [hf] at hmem
    simp at hmem

theorem natReprGo_fuel :
    ∀ (f1 : Nat), ∀ {n : Nat}, ∀ (f2 : Nat), n < f1 → n < f2 →
      natReprGo f1 n = natReprGo f2 n := by
  intro f1
  induction f1 with
  | zero => intro n f2 h1 _; omega
  | succ f1 ih =>
    intro n f2 h1 h2

    rcases f2 with _ | f2
    · omega
    · show (if n < 10 then [digitChar n]
            else natReprGo f1 (n / 10) ++ [digitChar (n % 10)]) =
           (if n < 10 then [digitChar n]
            else natReprGo f2 (n / 10) ++ [digitChar (n % 10)])
      by_cases hn : n < 10
      · rw [if_pos hn, if_pos hn]
      · have hpos : 0 < n := by omega
        have hdiv : n / 10 < n := Nat.div_lt_self hpos (by norm_num)
        rw [if_neg hn, if_neg hn,
          ih (n := n / 10) f2 (by omega) (by omega)]

theorem natRepr_unfold (n : Nat) :
    natRepr n = if n < 10 then [digitChar n]
                else natRepr (n / 10) ++ [digitChar (n % 10)] := by
  show (if n < 10 then [digitChar n]
        else natReprGo n (n / 10) ++ [digitChar (n % 10)]) = _
  by_cases hn : n < 10
  · rw [if_pos hn, if_pos hn]
  · have hpos : 0 < n := by omega
    have hdiv : n / 10 < n := Nat.div_lt_self hpos (by norm_num)
    rw [if_neg hn, if_neg hn]
    unfold natRepr
    rw [natReprGo_fuel n (n := n / 10) (n / 10 + 1) (by omega) (by omega)]

theorem natRepr_ne_nil (n : Nat) : natRepr n ≠ [] := by
  rw [natRepr_unfold]
  split <;> simp

theorem append_singleton_inj {a b : Str} {x y : Char}
    (h : a ++ [x] = b ++ [y]) : a = b ∧ x = y := by
  have hr := congrArg List.reverse h
  simp only [List.reverse_append, List.reverse_cons, List.reverse_nil,
    List.nil_append, List.singleton_append] at hr
  obtain ⟨hx, hrev⟩ := List.cons.inj hr
  exact ⟨List.reverse_injective hrev, hx⟩

theorem digitChar_inj10 : ∀ a < 10, ∀ b < 10, digitChar a = digitChar b → a = b := by
  decide

theorem natRepr_injective : ∀ a b : Nat, natRepr a = natRepr b → a = b := by
  intro a
  induction a using Nat.strong_induction_on with
  | _ a ih =>
    intro b h
    rw [natRepr_unfold a, natRepr_unfold b] at h
    by_cases ha : a < 10 <;> by_cases hb : b < 10
    · simp only [ha, hb, if_pos] at h
      exact digitChar_inj10 a ha b hb (List.cons.inj h).1
    · simp only [ha, hb, if_pos, if_neg, if_false] at h
      have := congrArg List.length h
      have hne : natRepr (b / 10) ≠ [] := natRepr_ne_nil _
      simp [List.length_append] at this
      rcases List.exists_cons_of_ne_nil hne with ⟨c, cs, hc⟩
      rw [hc] at this
      simp at this
    · simp only [ha, hb, if_pos, if_neg, if_false] at h
      have := congrArg List.length h
      have hne : natRepr (a / 10) ≠ [] := natRepr_ne_nil _
      simp [List.length_append] at this
      rcases List.exists_cons_of_ne_nil hne with ⟨c, cs, hc⟩
      rw [hc] at this
      simp at this
    · simp only [ha, hb, if_neg, if_false] at h
      obtain ⟨h1, h2⟩ := append_singleton_inj h
      have hdiv : a / 10 < a := Nat.div_lt_self (by omega) (by norm_num)
      have e1 : a / 10 = b / 10 := ih (a / 10) hdiv (b / 10) h1
      have e2 : a % 10 = b % 10 :=
        digitChar_inj10 (a % 10) (Nat.mod_lt _ (by norm_num)) (b % 10)
          (Nat.mod_lt _ (by norm_num)) h2
      omega

theorem mkId_inj_idx {now i j : Nat} (h : mkId now i = mkId now j) : i = j := by
  unfold mkId at h
  have h1 := List.append_cancel_left h
  exact natRepr_injective i j (List.cons.inj h1).2

theorem jsSubstitute_no_dollar (matched before after : Str) :
    ∀ repl : Str, '$' ∉ repl → jsSubstitute matched before after repl = repl := by
  intro repl
  induction repl with
  | nil => intro _; rfl
  | cons c rest ih =>
    intro h
    have hc : c ≠ '$' := fun hc => h (hc ▸ List.mem_cons_self c rest)
    have hrest : '$' ∉ rest := fun hm => h (List.mem_cons_of_mem c hm)
    cases rest with
    | nil => simp [jsSubstitute, hc]
    | cons d rest2 => simp [jsSubstitute, hc, ih hrest]

theorem isPrefixOf_nil_of_ne {pat : Str} (h : pat ≠ []) :
    pat.isPrefixOf ([] : Str) = false := by
  cases pat with
  | nil => exact absurd rfl h
  | cons c cs => rfl

theorem findFirstAux_none_replaceFirst {pat repl : Str} :
    ∀ (t acc : Str), findFirstAux pat acc t = none →
      replaceFirst pat repl t = t := by
  intro t
  induction t with
  | nil => intro acc _; rfl
  | cons c cs ih =>
    intro acc h
    cases hb : pat.isPrefixOf (c :: cs) with
    | true => simp [findFirstAux, hb] at h
    | false =>
      simp only [findFirstAux, hb, Bool.false_eq_true, if_false] at h
      rw [replaceFirst, if_neg (by simp [hb]), ih (c :: acc) h]

theorem findFirstAux_some_replaceFirst {pat : Str} (repl : Str) (hpat : pat ≠ []) :
    ∀ (t acc b a : Str), findFirstAux pat acc t = some (b, a) →
      ∃ b0, b = acc.reverse ++ b0 ∧ replaceFirst pat repl t = b0 ++ repl ++ a := by
  intro t
  induction t with
  | nil =>
    intro acc b a h
    simp [findFirstAux, isPrefixOf_nil_of_ne hpat] at h
  | cons c cs ih =>
    intro acc b a h
    cases hp : pat.isPrefixOf (c :: cs) with
    | true =>
      simp only [findFirstAux, hp, if_true, Option.some.injEq, Prod.mk.injEq] at h
      refine ⟨[], by simp [h.1.symm], ?_⟩
      rw [replaceFirst, if_pos (by simp [hp])]
      simp [h.2]
    | false =>
      simp only [findFirstAux, hp, Bool.false_eq_true, if_false] at h
      obtain ⟨b0, hb, hr⟩ := ih (c :: acc) b a h
      refine ⟨c :: b0, ?_, ?_⟩
      · rw [hb]
        simp
      · rw [replaceFirst, if_neg (by simp [hp]), hr]
        simp

theorem jsReplace_eq_replaceFirst {t pat repl : Str} (hpat : pat ≠ [])
    (hd : '$' ∉ repl) : jsReplace t pat repl = replaceFirst pat repl t := by
  unfold jsReplace
  rcases h : findFirstAux pat [] t with _ | ⟨b, a⟩
  · exact (findFirstAux_none_replaceFirst t [] h).symm
  · obtain ⟨b0, hb, hr⟩ := findFirstAux_some_replaceFirst repl hpat t [] b a h
    simp only [List.reverse_nil, List.nil_append] at hb
    rw [hr]
    show b ++ jsSubstitute pat b a repl ++ a = b0 ++ repl ++ a
    rw [jsSubstitute_no_dollar pat b a repl hd, hb]

theorem range_map_shift {β : Type} (g : Nat → β) (r a : Nat) :
    (List.range (r + 1)).map (fun i => g (a + i)) =
      g a :: (List.range r).map (fun i => g ((a + 1) + i)) := by
  rw [List.range_succ_eq_map, List.map_cons, List.map_map]
  refine congrArg₂ _ (by simp) ?_
  refine List.map_congr_left ?_
  intro i _
  simp only [Function.comp_apply]
  congr 1
  omega

theorem retryGo_nonretryable {α : Type} {f : Nat → Except JsErr α} {base : Nat}
    {a : Nat} {e : JsErr} (r : Nat) (hf : f a = .error e)
    (hr : (createApiError e).retryable = false) :
    retryGo f base a r = ⟨.error (createApiError e), 1, []⟩ := by
  cases r <;> simp [retryGo, hf, hr]

theorem retryGo_all_retryable {α : Type} {f : Nat → Except JsErr α} (base : Nat)
    (e : Nat → JsErr) :
    ∀ (r a : Nat),
      (∀ k, a ≤ k → k ≤ a + r → f k = .error (e k)) →
      (∀ k, a ≤ k → k ≤ a + r → (createApiError (e k)).retryable = true) →
      retryGo f base a r =
        ⟨.error (createApiError (e (a + r))), r + 1,
          (List.range r).map (fun i => getBackoffDelay (a + i) base)⟩ := by
  intro r
  induction r with
  | zero =>
    intro a hf hr
    have h0 := hf a le_rfl (by omega)
    have h1 := hr a le_rfl (by omega)
    simp [retryGo, h0, h1]
  | succ r ih =>
    intro a hf hr
    have h0 := hf a le_rfl (by omega)
    have h1 := hr a le_rfl (by omega)
    have hrest := ih (a + 1) (fun k hk1 hk2 => hf k (by omega) (by omega))
      (fun k hk1 hk2 => hr k (by omega) (by omega))
    rw [show a + (r + 1) = (a + 1) + r by omega,
      range_map_shift (fun i => getBackoffDelay i base)]
    simp [retryGo, h0, h1, hrest]

theorem retryGo_success {α : Type} {f : Nat → Except JsErr α} (base : Nat)
    (e : Nat → JsErr) (v : α) :
    ∀ (j a r : Nat),
      (∀ k, k < j → f (a + k) = .error (e (a + k))) →
      (∀ k, k < j → (createApiError (e (a + k))).retryable = true) →
      f (a + j) = .ok v → j ≤ r →
      retryGo f base a r =
        ⟨.ok v, j + 1, (List.range j).map (fun i => getBackoffDelay (a + i) base)⟩ := by
  intro j
  induction j with
  | zero =>
    intro a r _ _ hok _
    simp only [Nat.add_zero] at hok
    cases r <;> simp [retryGo, hok]
  | succ j ih =>
    intro a r hf hr hok hjr
    have h0 : f a = .error (e a) := by simpa using hf 0 (by omega)
    have h1 : (createApiError (e a)).retryable = true := by simpa using hr 0 (by omega)
    rcases r with _ | r
    · omega
    · have hrest := ih (a + 1) r
        (fun k hk => by
          have := hf (k + 1) (by omega)
          rwa [show a + (k + 1) = (a + 1) + k by omega] at this)
        (fun k hk => by
          have := hr (k + 1) (by omega)
          rwa [show a + (k + 1) = (a + 1) + k by omega] at this)
        (by rwa [show (a + 1) + j = a + (j + 1) by omega])
        (by omega)
      rw [range_map_shift (fun i => getBackoffDelay i base)]
      simp [retryGo, h0, h1, hrest]

theorem parseBatch_map_id (now : Nat) (payload : List PartialSuggestion) :
    (parseBatch now payload).map (fun w => w.id) =
      (List.range payload.length).map (mkId now) := by
  unfold parseBatch
  rw [List.mapIdx_eq_enum_map, List.map_map, ← List.enum_map_fst payload,
    List.map_map]
  rfl

theorem mkId_injective (now : Nat) : Function.Injective (mkId now) :=
  fun _ _ h => mkId_inj_idx h

/-! ## Claim theorems -/

/-- C7: `computeStatistics(t).wordCount = 0` iff `t.trim()` is empty, and
the statistics record is the all-zero record exactly for empty or
whitespace-only text — in particular every field is zero there. -/
theorem computeStatistics_zero_iff (t : Str) :
    ((computeStatistics t).wordCount = 0 ↔ trim t = []) ∧
    (computeStatistics t = ⟨0, 0, 0, 0, 0, 0, 0⟩ ↔ trim t = []) := by
  by_cases h : trim t = []
  · simp [computeStatistics, h]
  · have hex : ∃ c ∈ trim t, isSpace c = false := exists_nonspace_of_trim_ne_nil h
    have hwc : (computeStatistics t).wordCount ≠ 0 := by
      simp only [computeStatistics, h, if_false, if_neg, not_false_iff]
      intro hzero
      exact wordsBy_filter_ne_nil hex (List.length_eq_zero.mp hzero)
    refine ⟨⟨fun hz => absurd hz hwc, fun hz => absurd hz h⟩,
      ⟨fun he => ?_, fun hz => absurd hz h⟩⟩
    exact absurd (congrArg TextStatistics.wordCount he) hwc

/-- C8: the local tone classifier returns `neutral` exactly when no pattern
family scores above zero, otherwise the family with the strictly highest
score with ties between non-zero equal scores resolved by the precedence
formal > casual > technical > creative (this selection rule is `toneSpec`);
and the spec's example sentence classifies as formal. -/
theorem analyzeTone_contract :
    (∀ text : Str, analyzeTone text = toneSpec text) ∧
    analyzeTone
        "Therefore, we must consider the consequences. Furthermore, this shall be addressed.".data
      = Tone.formal :=
  ⟨analyzeTone_eq_toneSpec, by decide⟩

/-- C3 (amended): provided `originalText` and `suggestedText` are non-empty
and the replacement text contains no dollar character (which
`String.prototype.replace` treats as an escape), `applySuggestion` returns
the text with exactly the first occurrence of `originalText` replaced by
`suggestedText` — the text unchanged when `originalText` does not occur,
`replaceFirst` being the identity then — and removes the suggestion from
the active list. -/
theorem applySuggestion_replaces_first (s : WritingSuggestion) (t : Str)
    (st : SuggestionListState) (repl : Str) (hs : s.suggestedText = some repl)
    (hrepl : repl ≠ []) (horig : s.originalText ≠ []) (hd : '$' ∉ repl) :
    applySuggestion s t st =
      (replaceFirst s.originalText repl t, dismissSuggestion s st) ∧
    ∀ x ∈ (applySuggestion s t st).2.suggestions, x.id ≠ s.id := by
  have happ : applySuggestion s t st =
      (jsReplace t s.originalText repl, dismissSuggestion s st) := by
    unfold applySuggestion
    rw [hs]
    simp [hrepl, horig]
  rw [happ, jsReplace_eq_replaceFirst horig hd]
  refine ⟨rfl, ?_⟩
  intro x hx
  have hmem : x ∈ st.suggestions ∧ ¬ x.id = s.id := by
    simpa [dismissSuggestion] using hx
  exact hmem.2

/-- C3 counterexample: a suggestion whose `originalText` is empty (the
empty string occurs in every text) with a present replacement is neither
applied nor removed by `applySuggestion`, against the claim. -/
theorem applySuggestion_empty_original_cx :
    ¬ ((applySuggestion fixtureEmptyOriginal "abc".data
          ⟨[fixtureEmptyOriginal], []⟩).1 =
        replaceFirst [] "x".data "abc".data ∧
       fixtureEmptyOriginal ∉ (applySuggestion fixtureEmptyOriginal "abc".data
          ⟨[fixtureEmptyOriginal], []⟩).2.suggestions) := by
  decide

theorem applySuggestion_replaces_first_witness :
    applySuggestion fixtureApplicable "abc".data ⟨[fixtureApplicable], []⟩ =
      (replaceFirst "b".data "c".data "abc".data,
        dismissSuggestion fixtureApplicable ⟨[fixtureApplicable], []⟩) ∧
    ∀ x ∈ (applySuggestion fixtureApplicable "abc".data
        ⟨[fixtureApplicable], []⟩).2.suggestions,
      x.id ≠ fixtureApplicable.id :=
  applySuggestion_replaces_first fixtureApplicable "abc".data
    ⟨[fixtureApplicable], []⟩ "c".data rfl (by decide) (by decide) (by decide)

/-- C6 (amended): when `suggestedText` is absent, `applySuggestion` returns
the current text unchanged and leaves the suggestion-list state untouched —
the early return happens before the dismissal side effect, so the
suggestion is NOT removed from the active list. -/
theorem applySuggestion_absent_replacement (s : WritingSuggestion) (t : Str)
    (st : SuggestionListState) (hs : s.suggestedText = none) :
    applySuggestion s t st = (t, st) := by
  unfold applySuggestion
  rw [hs]
  simp

/-- C6 counterexample: applying the fixture without a replacement leaves
the text unchanged but does not remove the suggestion, refuting the claim
that it is still dismissed. -/
theorem applySuggestion_absent_cx :
    ¬ ((applySuggestion fixtureNoReplacement "xyz".data
          ⟨[fixtureNoReplacement], []⟩).1 = "xyz".data ∧
       fixtureNoReplacement ∉ (applySuggestion fixtureNoReplacement "xyz".data
          ⟨[fixtureNoReplacement], []⟩).2.suggestions) := by
  decide

theorem applySuggestion_absent_replacement_witness :
    applySuggestion fixtureNoReplacement "xyz".data
        ⟨[fixtureNoReplacement], []⟩ =
      ("xyz".data, ⟨[fixtureNoReplacement], []⟩) :=
  applySuggestion_absent_replacement fixtureNoReplacement "xyz".data
    ⟨[fixtureNoReplacement], []⟩ rfl

/-- C10: a suggestion whose `originalText` is the empty string — the
default the parser assigns when the remote payload omits it — is returned
by `applySuggestion` with the text unchanged and without being removed from
the list, even when `suggestedText` is present; such defaulted suggestions
can never be applied. -/
theorem applySuggestion_defaulted_original :
    (∀ (s : WritingSuggestion) (t : Str) (st : SuggestionListState),
        s.originalText = [] → applySuggestion s t st = (t, st)) ∧
    (∀ (now idx : Nat) (p : PartialSuggestion), p.originalText = none →
        (parseSuggestion now idx p).originalText = []) := by
  constructor
  · intro s t st h
    unfold applySuggestion
    rw [h]
    simp
  · intro now idx p h
    simp [parseSuggestion, jsOrStr, h]

theorem applySuggestion_defaulted_original_witness :
    applySuggestion fixtureEmptyOriginal "abc".data
        ⟨[fixtureEmptyOriginal], []⟩ =
      ("abc".data, ⟨[fixtureEmptyOriginal], []⟩) ∧
    (parseSuggestion 5 0 {}).originalText = [] :=
  ⟨applySuggestion_defaulted_original.1 fixtureEmptyOriginal "abc".data
      ⟨[fixtureEmptyOriginal], []⟩ rfl,
   applySuggestion_defaulted_original.2 5 0 {} rfl⟩

/-- C9 (amended): every parsed suggestion's id is freshly generated from
the parse-time `Date.now()` value and the element index — an id in the
payload is never used, the id list depending only on the batch length —
and ids within one parsed batch are pairwise distinct; across batches of a run,
ids collide whenever two batches are parsed at the same millisecond (see
the counterexample), so run-wide uniqueness holds only for batches parsed
at distinct timestamps. -/
theorem parseBatch_fresh_ids (now : Nat) (payload : List PartialSuggestion) :
    (parseBatch now payload).map (fun w => w.id) =
      (List.range payload.length).map (mkId now) ∧
    ((parseBatch now payload).map (fun w => w.id)).Nodup := by
  refine ⟨parseBatch_map_id now payload, ?_⟩
  rw [parseBatch_map_id now payload]
  exact (List.nodup_range _).map (mkId_injective now)

/-- C9 counterexample: two batches parsed during one run at the same
`Date.now()` timestamp both assign the id `suggestion-100-0`, so the ids
assigned within the run are not pairwise distinct across batches. -/
theorem parseBatch_cross_batch_collision :
    ¬ (((parseBatch 100 [{ message := some "first batch".data }] ++
         parseBatch 100 [{ message := some "second batch".data }]).map
          (fun w => w.id)).Nodup) := by
  decide

/-- C2: the retrying executor invokes the operation exactly once when the
first attempt fails with a non-retryably classified error; exactly
`maxRetries + 1` times when every attempt fails retryably, sleeping
`baseDelayMs * 2 ^ attempt` before retry `attempt + 1`; and a success on
attempt `j` is returned immediately after `j + 1` invocations. -/
theorem makeRequestWithRetry_contract :
    (∀ (α : Type) (f : Nat → Except JsErr α) (N : Nat) (err : JsErr),
        f 0 = .error err → (createApiError err).retryable = false →
        makeRequestWithRetry f N = ⟨.error (createApiError err), 1, []⟩) ∧
    (∀ (α : Type) (f : Nat → Except JsErr α) (N : Nat) (e : Nat → JsErr),
        (∀ k, k ≤ N → f k = .error (e k)) →
        (∀ k, k ≤ N → (createApiError (e k)).retryable = true) →
        makeRequestWithRetry f N =
          ⟨.error (createApiError (e N)), N + 1,
            (List.range N).map (fun i => CONFIG_retryDelay * 2 ^ i)⟩) ∧
    (∀ (α : Type) (f : Nat → Except JsErr α) (N j : Nat) (v : α) (e : Nat → JsErr),
        (∀ k, k < j → f k = .error (e k)) →
        (∀ k, k < j → (createApiError (e k)).retryable = true) →
        f j = .ok v → j ≤ N →
        makeRequestWithRetry f N =
          ⟨.ok v, j + 1, (List.range j).map (fun i => CONFIG_retryDelay * 2 ^ i)⟩) := by
  refine ⟨?_, ?_, ?_⟩
  · intro α f N err hf hr
    exact retryGo_nonretryable N hf hr
  · intro α f N e hf hr
    have h := retryGo_all_retryable CONFIG_retryDelay e N 0
      (fun k _ hk2 => hf k (by omega)) (fun k _ hk2 => hr k (by omega))
    simpa [getBackoffDelay, makeRequestWithRetry] using h
  · intro α f N j v e hf hr hok hjN
    have h := retryGo_success CONFIG_retryDelay e v j 0 N
      (fun k hk => by simpa using hf k hk)
      (fun k hk => by simpa using hr k hk) (by simpa using hok) hjN
    simpa [getBackoffDelay, makeRequestWithRetry] using h

theorem makeRequestWithRetry_contract_witness :
    makeRequestWithRetry (fun _ => (.error .other : Except JsErr Nat)) 3 =
      ⟨.error (createApiError .other), 1, []⟩ ∧
    makeRequestWithRetry
        (fun _ => (.error (.apiErr (some 500) none [] []) : Except JsErr Nat)) 2 =
      ⟨.error (createApiError (.apiErr (some 500) none [] [])), 3,
        (List.range 2).map (fun i => CONFIG_retryDelay * 2 ^ i)⟩ ∧
    makeRequestWithRetry
        (fun k => if k = 0 then .error (.apiErr (some 503) none [] [])
                  else (.ok 7 : Except JsErr Nat)) 3 =
      ⟨.ok 7, 2, (List.range 1).map (fun i => CONFIG_retryDelay * 2 ^ i)⟩ :=
  ⟨makeRequestWithRetry_contract.1 Nat _ 3 .other rfl (by decide),
   makeRequestWithRetry_contract.2.1 Nat _ 2 (fun _ => .apiErr (some 500) none [] [])
     (fun _ _ => rfl)
     (fun _ _ =>
       show (createApiError (JsErr.apiErr (some 500) none [] [])).retryable = true
       by decide),
   makeRequestWithRetry_contract.2.2 Nat _ 3 1 7 (fun _ => .apiErr (some 503) none [] [])
     (fun k hk => by interval_cases k; rfl)
     (fun _ _ =>
       show (createApiError (JsErr.apiErr (some 503) none [] [])).retryable = true
       by decide)
     rfl (by omega)⟩

/-- C4 (amended): a timed-out attempt rejects with
`Error('Request timeout')`, which `createApiError` classifies as
NON-retryable (code `NETWORK_ERROR`, the raw message, since the message
contains neither "fetch" nor "network"), so the executor never retries
after a timeout: whatever retry budget remains, it stops after that
attempt and throws. -/
theorem timeout_never_retried :
    ∀ (α : Type) (f : Nat → Except JsErr α) (N : Nat),
      f 0 = .error (.errInstance "Error".data "Request timeout".data) →
      createApiError (.errInstance "Error".data "Request timeout".data) =
        ⟨"NETWORK_ERROR".data, "Request timeout".data, none, none, false⟩ ∧
      makeRequestWithRetry f N =
        ⟨.error ⟨"NETWORK_ERROR".data, "Request timeout".data, none, none, false⟩,
          1, []⟩ := by
  intro α f N hf
  have hclass : createApiError (.errInstance "Error".data "Request timeout".data) =
      ⟨"NETWORK_ERROR".data, "Request timeout".data, none, none, false⟩ := by decide
  refine ⟨hclass, ?_⟩
  unfold makeRequestWithRetry
  rw [retryGo_nonretryable N hf (by rw [hclass]), hclass]

/-- C4 counterexample: the timeout rejection is not classified retryable,
and a run with three retries remaining still invokes the operation exactly
once — the timed-out attempt is not retried. -/
theorem timeout_retryable_cx :
    ¬ ((createApiError (.errInstance "Error".data "Request timeout".data)).retryable
        = true ∧
       1 < (makeRequestWithRetry
             (fun _ => (.error (.errInstance "Error".data "Request timeout".data) :
                Except JsErr Nat)) 3).calls) := by
  decide

theorem timeout_never_retried_witness :
    createApiError (.errInstance "Error".data "Request timeout".data) =
      ⟨"NETWORK_ERROR".data, "Request timeout".data, none, none, false⟩ ∧
    makeRequestWithRetry
        (fun _ => (.error (.errInstance "Error".data "Request timeout".data) :
           Except JsErr Nat)) 3 =
      ⟨.error ⟨"NETWORK_ERROR".data, "Request timeout".data, none, none, false⟩,
        1, []⟩ :=
  timeout_never_retried Nat
    (fun _ => .error (.errInstance "Error".data "Request timeout".data)) 3 rfl

/-- C1 (code bug): fetch A starts, fetch B starts before A settles, B's
request settles first (B's batch becomes visible), then A's request
settles last — and A's stale batch overwrites B's in the suggestion list.
Nothing discards the superseded fetch's outcome: `makeRequestWithRetry`
never reads `options.signal`, and the catch's AbortError guard is
unreachable. -/
theorem stale_fetch_overwrites :
    (runTrace
        [.start, .start, .settle (.ok fixtureBatchB), .settle (.ok fixtureBatchA)]
        initialHookState).suggestions = fixtureBatchA ∧
    fixtureBatchA ≠ fixtureBatchB := by
  exact ⟨rfl, by decide⟩

/-- C5 (amended): the two classifiers follow the claimed table only in
part.  `createApiError`: HTTP 429 gives retryable with the fixed
rate-limit message; status ≥ 500 gives retryable; 401/403 give
non-retryable but carry the provider's message (generic fallback when
empty), not a fixed authentication message; an `Error` whose message
mentions "fetch" or "network" gives retryable with the fixed network
message; a non-`Error` value gives non-retryable with the generic message.
`parseApiError`: the 429, 401/403 and ≥ 500 status rows match the table
with fixed messages, but a plain `Error` instance (other than AbortError)
and an unrecognized value are classified RETRYABLE, not non-retryable as
the claim's "anything else" row states. -/
theorem errorClassification_table :
    (∀ (code : Option Str) (message etype : Str),
        createApiError (.apiErr (some 429) code message etype) =
          ⟨jsOrStr code "API_ERROR".data, RATE_LIMIT_ERROR_MESSAGE,
            some 429, some etype, true⟩) ∧
    (∀ (s : Nat) (code : Option Str) (message etype : Str), 500 ≤ s →
        (createApiError (.apiErr (some s) code message etype)).retryable = true) ∧
    (∀ (s : Nat) (code : Option Str) (message etype : Str), s = 401 ∨ s = 403 →
        (createApiError (.apiErr (some s) code message etype)).retryable = false ∧
        (createApiError (.apiErr (some s) code message etype)).message =
          jsOrStr (some message) API_ERROR_MESSAGE) ∧
    (∀ (name message : Str),
        (jsIncludes message "fetch".data || jsIncludes message "network".data) = true →
        createApiError (.errInstance name message) =
          ⟨"NETWORK_ERROR".data, NETWORK_ERROR_MESSAGE, none, none, true⟩) ∧
    createApiError .other =
      ⟨"UNKNOWN_ERROR".data, API_ERROR_MESSAGE, none, none, false⟩ ∧
    parseApiError (.statusObj 429) =
      ⟨"rate_limit_exceeded".data,
        "Too many requests. Please try again in a moment.".data, none, none, true⟩ ∧
    (∀ s : Nat, s = 401 ∨ s = 403 →
        parseApiError (.statusObj s) =
          ⟨"unauthorized".data,
            "Authentication failed. Please check your API key.".data,
            none, none, false⟩) ∧
    (∀ s : Nat, 500 ≤ s →
        parseApiError (.statusObj s) =
          ⟨"server_error".data, "Server error. Please try again later.".data,
            none, none, true⟩) ∧
    (∀ name message : Str, name ≠ "AbortError".data →
        (parseApiError (.errInstance name message)).retryable = true) ∧
    (parseApiError .unknown).retryable = true := by
  refine ⟨?_, ?_, ?_, ?_, by decide, by decide, ?_, ?_, ?_, by decide⟩
  · intro code message etype
    simp [createApiError]
  · intro s code message etype h
    have h429 : s ≠ 429 := by omega
    simp [createApiError, h, h429, Nat.le_of_lt]
  · intro s code message etype h
    rcases h with rfl | rfl <;> simp [createApiError]
  · intro name message h
    simp [createApiError, h]
  · intro s h
    rcases h with rfl | rfl <;> decide
  · intro s h
    have h429 : s ≠ 429 := by omega
    have h4013 : ¬ (s = 401 ∨ s = 403) := by omega
    simp [parseApiError, h, h429, h4013]
  · intro name message h
    simp [parseApiError, h]

/-- C5 counterexample: a value that matches none of the table's rows —
neither an HTTP status, nor a network failure — is classified by
`parseApiError` as retryable, where the claim's "anything else" row
requires retryable = false. -/
theorem errorClassification_unknown_retryable_cx :
    ¬ ((parseApiError UnknownErr.unknown).retryable = false) := by
  decide

theorem errorClassification_table_witness :
    createApiError (.apiErr (some 429) none "boom".data "t".data) =
      ⟨"API_ERROR".data, RATE_LIMIT_ERROR_MESSAGE, some 429, some "t".data, true⟩ ∧
    (createApiError (.apiErr (some 503) none "boom".data "t".data)).retryable = true ∧
    (createApiError (.apiErr (some 401) none "boom".data "t".data)).retryable = false ∧
    createApiError (.errInstance "TypeError".data "fetch failed".data) =
      ⟨"NETWORK_ERROR".data, NETWORK_ERROR_MESSAGE, none, none, true⟩ ∧
    parseApiError (.statusObj 401) =
      ⟨"unauthorized".data,
        "Authentication failed. Please check your API key.".data,
        none, none, false⟩ ∧
    parseApiError (.statusObj 500) =
      ⟨"server_error".data, "Server error. Please try again later.".data,
        none, none, true⟩ ∧
    (parseApiError (.errInstance "TypeError".data "boom".data)).retryable = true :=
  ⟨errorClassification_table.1 none "boom".data "t".data,
   errorClassification_table.2.1 503 none "boom".data "t".data (by omega),
   (errorClassification_table.2.2.1 401 none "boom".data "t".data (Or.inl rfl)).1,
   errorClassification_table.2.2.2.1 "TypeError".data "fetch failed".data (by decide),
   errorClassification_table.2.2.2.2.2.2.1 401 (Or.inl rfl),
   errorClassification_table.2.2.2.2.2.2.2.1 500 (by omega),
   errorClassification_table.2.2.2.2.2.2.2.2.1 "TypeError".data "boom".data (by decide)⟩
